import Mathlib

/-!
Shallow embedding of the receive pipeline of `tigo-mqtt-bridge.py`
(repository `python-taptap`): the byte-stuffed frame decoder
(`FrameReceiver`), the CRC-16 routines, the receive-response packet walk
(`MQTTBridgeSink._handle_receive_response`), the bit-packed power-report
decoder (`MQTTBridgeSink._handle_power_report`) and the deduplication gate
(`MQTTBridge.publish_power_report`).

Bytes taken from a Python `bytes` object are modelled as `Nat` (the source
manipulates them as Python ints); Python floats are modelled as exact
rationals; the mutable decoder state collapses to its `buffer` field, the
only field `extend_from_slice` reads or writes.
-/

namespace TigoBridge

/-- Index of the first two-byte window `7E m` in the list: the scan
`for i in range(len(buffer) - 1): if buffer[i:i+2] == [0x7E, m]` used by
`FrameReceiver.extend_from_slice` for both sentinels. -/
def findSentinel (m : Nat) : List Nat → Option Nat
  | x :: y :: rest =>
    if x = 0x7E ∧ y = m then some 0
    else (findSentinel m (y :: rest)).map (fun i => i + 1)
  | _ => none

/-- The unescaped byte for escape code `y ≤ 6`: `FrameReceiver.ESCAPE_MAP`. -/
def escByte (y : Nat) : Nat :=
  if y = 0 then 0x7E
  else if y = 1 then 0x24
  else if y = 2 then 0x23
  else if y = 3 then 0x25
  else if y = 4 then 0xA4
  else if y = 5 then 0xA3
  else 0xA5

/-- `FrameReceiver.unescape_frame`: rewrite each `7E k` pair with `k ≤ 6`
to its mapped byte; any other byte — including a `7E` not followed by an
escape code, and a trailing lone `7E` — is copied through unchanged. -/
def unescape_frame : List Nat → List Nat
  | [] => []
  | [x] => [x]
  | x :: y :: rest =>
    if x = 0x7E ∧ y ≤ 6 then escByte y :: unescape_frame rest
    else x :: unescape_frame (y :: rest)

/-- One shift step of the CRC register: shift right one bit and XOR with
`0x8408` when the shifted-out bit was 1 (`FrameReceiver.calculate_crc`). -/
def crcShift (c : Nat) : Nat :=
  if c % 2 = 1 then (c / 2) ^^^ 0x8408 else c / 2

/-- Fold one byte into the CRC register: XOR it in, then do 8 shift steps. -/
def crcByte (c b : Nat) : Nat :=
  crcShift (crcShift (crcShift (crcShift (crcShift (crcShift (crcShift (crcShift (c ^^^ b))))))))

/-- `FrameReceiver.calculate_crc`: CRC with polynomial `0x8408` and initial
register `0x8408`. -/
def calculate_crc (data : List Nat) : Nat :=
  data.foldl crcByte 0x8408

/-- Python `int.from_bytes(checksum, byteorder='little')`. -/
def fromLE : List Nat → Nat
  | [] => 0
  | b :: rest => b + 256 * fromLE rest

/-- `FrameReceiver.verify_checksum`: the computed CRC must equal the stored
little-endian value. -/
def verify_checksum (data checksum : List Nat) : Bool :=
  calculate_crc data == fromLE checksum

/-- The two-byte little-endian rendering of a 16-bit CRC value. -/
def crc_le (n : Nat) : List Nat := [n % 256, n / 256 % 256]

/-- The length/CRC gate of `extend_from_slice`: the unescaped inter-sentinel
data (CRC bytes still attached) must be at least 4 bytes long, and its last
two bytes must verify as the CRC of the rest. -/
def frameOK (u : List Nat) : Bool :=
  decide (4 ≤ u.length) && verify_checksum (u.take (u.length - 2)) (u.drop (u.length - 2))

/-- The `while True` body of `FrameReceiver.extend_from_slice`: repeatedly
look for a start sentinel, then an end sentinel after it; on both found,
unescape the region between them, deliver it to the sink when `frameOK`
holds, cut the buffer past the end sentinel, and loop.  Returns the list
of unescaped frame data handed to the sink (in order) and the final
buffer. -/
def processBuffer (b : List Nat) : List (List Nat) × List Nat :=
  match hs : findSentinel 0x07 b with
  | none => ([], b)
  | some s =>
    match he : findSentinel 0x08 (b.drop (s + 2)) with
    | none => ([], b)
    | some r =>
      (if frameOK (unescape_frame ((b.drop (s + 2)).take r)) then
         unescape_frame ((b.drop (s + 2)).take r) :: (processBuffer (b.drop (s + 2 + r + 2))).1
       else (processBuffer (b.drop (s + 2 + r + 2))).1,
       (processBuffer (b.drop (s + 2 + r + 2))).2)
termination_by b.length
decreasing_by
  all_goals
    have hb : 0 < b.length := by
      cases b with
      | nil => simp [findSentinel] at hs
      | cons a t => simp
    simp only [List.length_drop]
    omega

/-- `FrameReceiver.extend_from_slice`: append the chunk to the buffer and
drain all complete frames. -/
def extend_from_slice (buffer data : List Nat) : List (List Nat) × List Nat :=
  processBuffer (buffer ++ data)

/-- Feed a sequence of chunks through `extend_from_slice`, starting from a
given buffer, collecting all sink deliveries in order. -/
def feedChunks (st : List Nat) : List (List Nat) → List (List Nat) × List Nat
  | [] => ([], st)
  | c :: cs =>
    ((extend_from_slice st c).1 ++ (feedChunks (extend_from_slice st c).2 cs).1,
     (feedChunks (extend_from_slice st c).2 cs).2)

/-! Deduplication gate (`MQTTBridge.publish_power_report`). -/

/-- The value fields of one power report that the gate inspects
(`report.slot`, `report.voltage_in`, `report.current`,
`report.temperature`). -/
structure ReportSample where
  slot : Nat
  voltage_in : ℚ
  current : ℚ
  temperature : ℚ
deriving DecidableEq

/-- One entry of `MQTTBridge.last_reports`: the tuple
`(current_time, report.slot, {'vin', 'current', 'temp'})` stored there. -/
structure DedupEntry where
  time : ℚ
  slot : Nat
  vin : ℚ
  cur : ℚ
  temp : ℚ
deriving DecidableEq

/-- The `last_reports` dictionary, keyed by `(gateway_id, node_id.value)`
(the source key string `f"{gateway_id}-{node_id.value}"` renders the pair
injectively). -/
abbrev DedupState := Nat × Nat → Option DedupEntry

/-- `MQTTBridge.publish_power_report`, with the MQTT client present: returns
whether the report is published and the updated `last_reports`.  When
`dedup_window <= 0` the source returns immediately (publishing nothing and
recording nothing); otherwise it deduplicates only a same-slot report whose
values are within the tolerances and which arrives inside the window, and
in every case records the current sample, timestamp included. -/
def publish_power_report (dedup_window : ℚ) (last_reports : DedupState)
    (gateway_id node_id : Nat) (current_time : ℚ) (report : ReportSample) :
    Bool × DedupState :=
  if dedup_window ≤ 0 then
    (false, last_reports)
  else
    (match last_reports (gateway_id, node_id) with
     | none => true
     | some e =>
       if current_time - e.time < dedup_window ∧ report.slot = e.slot then
         if |report.voltage_in - e.vin| < 0.2 ∧ |report.current - e.cur| < 0.05 ∧
             |report.temperature - e.temp| < 0.5 then
           false
         else true
       else true,
     fun k =>
       if k = (gateway_id, node_id) then
         some ⟨current_time, report.slot, report.voltage_in, report.current, report.temperature⟩
       else last_reports k)

/-! Power-report decoding (`MQTTBridgeSink._handle_power_report`). -/

/-- The decoded fields of a power report as built by
`_handle_power_report`. -/
structure ParsedPowerReport where
  vin_raw : Nat
  voltage_in : ℚ
  vout_raw : Nat
  voltage_out : ℚ
  duty_cycle : ℚ
  cur_raw : Nat
  current : ℚ
  temp_raw : Nat
  temperature : ℚ
  slot : Nat
  rssi : Option Nat
deriving DecidableEq

/-- `MQTTBridgeSink._handle_power_report`: packets shorter than 12 bytes
are warned about and dropped (`none`); otherwise the bit-packed fields are
decoded, with `rssi` only present when a 13th byte exists. -/
def handle_power_report (data : List Nat) : Option ParsedPowerReport :=
  if data.length < 12 then none
  else
    some
      { vin_raw := (data.getD 0 0 <<< 4) ||| ((data.getD 1 0 &&& 0xF0) >>> 4)
        voltage_in := ((data.getD 0 0 <<< 4) ||| ((data.getD 1 0 &&& 0xF0) >>> 4) : ℚ) * 0.05
        vout_raw := ((data.getD 1 0 &&& 0x0F) <<< 8) ||| data.getD 2 0
        voltage_out := (((data.getD 1 0 &&& 0x0F) <<< 8) ||| data.getD 2 0 : ℚ) * 0.10
        duty_cycle := (data.getD 3 0 : ℚ) / 255 * 100
        cur_raw := (data.getD 4 0 <<< 4) ||| ((data.getD 5 0 &&& 0xF0) >>> 4)
        current := ((data.getD 4 0 <<< 4) ||| ((data.getD 5 0 &&& 0xF0) >>> 4) : ℚ) * 0.005
        temp_raw := ((data.getD 5 0 &&& 0x0F) <<< 8) ||| data.getD 6 0
        temperature := (((data.getD 5 0 &&& 0x0F) <<< 8) ||| data.getD 6 0 : ℚ) * 0.1
        slot := 256 * data.getD 10 0 + data.getD 11 0
        rssi := if 13 ≤ data.length then some (data.getD 12 0) else none }

/-! Receive-response packet walk (`MQTTBridgeSink._handle_receive_response`). -/

/-- The `while offset + 6 <= len(payload)` loop of
`_handle_receive_response`: each completing iteration reads 1 type byte,
2 node-id bytes, skips 3 bytes, reads 1 length byte and consumes
`data_length` data bytes, emitting a `(packet_type, node_id, data)` tuple.
Reading the length byte at index `len(payload)` raises `IndexError` in the
source (caught by the frame handler), aborting the walk; a `data_length`
overrunning the payload breaks out of the loop. -/
def walkPackets (p : List Nat) (offset : Nat) : List (Nat × Nat × List Nat) :=
  if offset + 6 ≤ p.length then
    if offset + 1 + 2 > p.length then []
    else if offset + 6 < p.length then
      if offset + 7 + p.getD (offset + 6) 0 > p.length then []
      else
        (p.getD offset 0, 256 * p.getD (offset + 1) 0 + p.getD (offset + 2) 0,
          (p.drop (offset + 7)).take (p.getD (offset + 6) 0)) ::
          walkPackets p (offset + 7 + p.getD (offset + 6) 0)
    else []
  else []
termination_by p.length - offset
decreasing_by omega

/-- `MQTTBridgeSink._handle_receive_response`: require a 3-byte payload,
dispatch on the status type to fix the starting offset (2 status bytes,
a status-type-dependent skip, then 3 slot-counter bytes), then walk the
embedded packets. -/
def handle_receive_response (payload : List Nat) : List (Nat × Nat × List Nat) :=
  if payload.length < 3 then []
  else if payload.take 2 = [0x00, 0xE0] then walkPackets payload (2 + 7 + 3)
  else if payload.take 2 = [0x00, 0xFE] then walkPackets payload (2 + 1 + 3)
  else if payload.take 2 = [0x00, 0xEE] then walkPackets payload (2 + 2 + 3)
  else if payload.take 2 = [0x00, 0xFF] then walkPackets payload (2 + 3)
  else []

/-! Helper lemmas about the sentinel scan and the buffer loop. -/

/-- A found sentinel window lies wholly inside the list. -/
theorem findSentinel_bound {m : Nat} : ∀ {l : List Nat} {s : Nat},
    findSentinel m l = some s → s + 2 ≤ l.length := by
  intro l
  induction l with
  | nil => intro s h; simp [findSentinel] at h
  | cons x t ih =>
    intro s h
    cases t with
    | nil => simp [findSentinel] at h
    | cons y rest =>
      rw [findSentinel] at h
      by_cases hc : x = 0x7E ∧ y = m
      · rw [if_pos hc] at h
        cases h
        simp
      · rw [if_neg hc] at h
        cases hfs : findSentinel m (y :: rest) with
        | none => rw [hfs] at h; simp at h
        | some s' =>
          rw [hfs] at h
          simp only [Option.map_some'] at h
          cases h
          have := ih hfs
          simp only [List.length_cons] at this ⊢
          omega

/-- Appending data on the right does not move the first sentinel window. -/
theorem findSentinel_append {m : Nat} {d : List Nat} : ∀ {l : List Nat} {s : Nat},
    findSentinel m l = some s → findSentinel m (l ++ d) = some s := by
  intro l
  induction l with
  | nil => intro s h; simp [findSentinel] at h
  | cons x t ih =>
    intro s h
    cases t with
    | nil => simp [findSentinel] at h
    | cons y rest =>
      rw [findSentinel] at h
      simp only [List.cons_append]
      rw [findSentinel]
      by_cases hc : x = 0x7E ∧ y = m
      · rw [if_pos hc] at h ⊢
        exact h
      · rw [if_neg hc] at h ⊢
        cases hfs : findSentinel m (y :: rest) with
        | none => rw [hfs] at h; simp at h
        | some s' =>
          rw [hfs] at h
          have : findSentinel m ((y :: rest) ++ d) = some s' := ih hfs
          simp only [List.cons_append] at this
          rw [this]
          exact h

/-- Equation of `processBuffer` when no start sentinel is in the buffer. -/
theorem processBuffer_no_start {b : List Nat} (h : findSentinel 0x07 b = none) :
    processBuffer b = ([], b) := by
  rw [processBuffer]
  split
  · rfl
  · next s hs => rw [h] at hs; cases hs

/-- Equation of `processBuffer` when a start sentinel is found but no end
sentinel follows it. -/
theorem processBuffer_no_end {b : List Nat} {s : Nat}
    (h1 : findSentinel 0x07 b = some s)
    (h2 : findSentinel 0x08 (b.drop (s + 2)) = none) :
    processBuffer b = ([], b) := by
  rw [processBuffer]
  split
  · rfl
  · next s' hs =>
    rw [h1] at hs
    cases hs
    split
    · rfl
    · next r he => rw [h2] at he; cases he

/-- Equation of `processBuffer` when a whole delimited region is present:
the region is unescaped, delivered when `frameOK` holds, and the loop
continues past the end sentinel. -/
theorem processBuffer_step {b : List Nat} {s r : Nat}
    (h1 : findSentinel 0x07 b = some s)
    (h2 : findSentinel 0x08 (b.drop (s + 2)) = some r) :
    processBuffer b =
      (if frameOK (unescape_frame ((b.drop (s + 2)).take r)) then
         unescape_frame ((b.drop (s + 2)).take r) :: (processBuffer (b.drop (s + 2 + r + 2))).1
       else (processBuffer (b.drop (s + 2 + r + 2))).1,
       (processBuffer (b.drop (s + 2 + r + 2))).2) := by
  rw [processBuffer]
  split
  · next hs => rw [h1] at hs; cases hs
  · next s' hs =>
    rw [h1] at hs
    cases hs
    split
    · next he => rw [h2] at he; cases he
    · next r' he =>
      rw [h2] at he
      cases he
      rfl

/-- Core compositionality of the buffer loop: draining `b ++ d` delivers
first what draining `b` delivers, then what draining the residue of `b`
extended by `d` delivers, and leaves the same residue.  (Fuel-indexed
strong induction on the length of `b`.) -/
theorem processBuffer_append_aux : ∀ (n : Nat) (b d : List Nat), b.length < n →
    processBuffer (b ++ d) =
      ((processBuffer b).1 ++ (processBuffer ((processBuffer b).2 ++ d)).1,
       (processBuffer ((processBuffer b).2 ++ d)).2) := by
  intro n
  induction n with
  | zero => intro b d h; omega
  | succ n ih =>
    intro b d hlen
    cases h1 : findSentinel 0x07 b with
    | none =>
      rw [processBuffer_no_start h1]
      simp only [List.nil_append]
    | some s =>
      cases h2 : findSentinel 0x08 (b.drop (s + 2)) with
      | none =>
        rw [processBuffer_no_end h1 h2]
        simp only [List.nil_append]
      | some r =>
        have hb1 : s + 2 ≤ b.length := findSentinel_bound h1
        have hb2 : r + 2 ≤ (b.drop (s + 2)).length := findSentinel_bound h2
        simp only [List.length_drop] at hb2
        have e1 : findSentinel 0x07 (b ++ d) = some s := findSentinel_append h1
        have hdrop : (b ++ d).drop (s + 2) = b.drop (s + 2) ++ d := by
          rw [List.drop_append_eq_append_drop, Nat.sub_eq_zero_of_le hb1, List.drop_zero]
        have e2 : findSentinel 0x08 ((b ++ d).drop (s + 2)) = some r := by
          rw [hdrop]
          exact findSentinel_append h2
        have htake : ((b ++ d).drop (s + 2)).take r = (b.drop (s + 2)).take r := by
          rw [hdrop, List.take_append_eq_append_take]
          have hz : r - (b.drop (s + 2)).length = 0 := by
            simp only [List.length_drop]
            omega
          rw [hz]
          simp
        have hdrop2 : (b ++ d).drop (s + 2 + r + 2) = b.drop (s + 2 + r + 2) ++ d := by
          rw [List.drop_append_eq_append_drop, Nat.sub_eq_zero_of_le (by omega), List.drop_zero]
        rw [processBuffer_step e1 e2, processBuffer_step h1 h2, htake, hdrop2]
        have hrec := ih (b.drop (s + 2 + r + 2)) d (by simp only [List.length_drop]; omega)
        rw [hrec]
        by_cases hok : frameOK (unescape_frame ((b.drop (s + 2)).take r))
        · simp [hok]
        · simp [hok]

/-- `processBuffer_append_aux` with the fuel discharged. -/
theorem processBuffer_append (b d : List Nat) :
    processBuffer (b ++ d) =
      ((processBuffer b).1 ++ (processBuffer ((processBuffer b).2 ++ d)).1,
       (processBuffer ((processBuffer b).2 ++ d)).2) :=
  processBuffer_append_aux (b.length + 1) b d (by omega)

/-- Feeding the chunks one by one after draining `b` is the same as
draining `b` followed by all the chunks at once. -/
theorem feedChunks_flatten : ∀ (cs : List (List Nat)) (b : List Nat),
    (processBuffer b).1 ++ (feedChunks (processBuffer b).2 cs).1 =
        (processBuffer (b ++ cs.flatten)).1 ∧
      (feedChunks (processBuffer b).2 cs).2 = (processBuffer (b ++ cs.flatten)).2 := by
  intro cs
  induction cs with
  | nil => intro b; simp [feedChunks]
  | cons c cs ih =>
    intro b
    have hstep := processBuffer_append b c
    have hih := ih (b ++ c)
    constructor
    · rw [feedChunks]
      simp only [extend_from_slice]
      rw [← List.append_assoc]
      have h1 : (processBuffer b).1 ++ (processBuffer ((processBuffer b).2 ++ c)).1 =
          (processBuffer (b ++ c)).1 := by rw [hstep]
      have h2 : (processBuffer ((processBuffer b).2 ++ c)).2 = (processBuffer (b ++ c)).2 := by
        rw [hstep]
      rw [h1, h2, hih.1]
      simp [List.append_assoc]
    · rw [feedChunks]
      simp only [extend_from_slice]
      have h2 : (processBuffer ((processBuffer b).2 ++ c)).2 = (processBuffer (b ++ c)).2 := by
        rw [hstep]
      rw [h2, hih.2]
      simp [List.append_assoc]

/-- Claim C7: for every byte stream `S` and every partition of `S` into
chunks fed successively through `extend_from_slice`, the sequence of
unescaped frames delivered to the sink is identical to the sequence
produced when `S` is fed as one single chunk. -/
theorem fragmentation_invariance (S : List Nat) (chunks : List (List Nat))
    (hpart : chunks.flatten = S) :
    (feedChunks [] chunks).1 = (feedChunks [] [S]).1 := by
  subst hpart
  have h0 : processBuffer ([] : List Nat) = ([], []) := processBuffer_no_start rfl
  have h := (feedChunks_flatten chunks []).1
  rw [h0] at h
  simp only [List.nil_append] at h
  have h2 := (feedChunks_flatten [chunks.flatten] []).1
  rw [h0] at h2
  simp only [List.nil_append, List.flatten_cons, List.flatten_nil, List.append_nil] at h2
  exact h.trans h2.symm

/-- Witness for `fragmentation_invariance` at a concrete two-chunk split. -/
theorem fragmentation_invariance_witness :
    [[0x7E], [0x07, 0x01]].flatten = [0x7E, 0x07, 0x01] ∧
    (feedChunks [] [[0x7E], [0x07, 0x01]]).1 = (feedChunks [] [[0x7E, 0x07, 0x01]]).1 :=
  ⟨by decide, fragmentation_invariance [0x7E, 0x07, 0x01] [[0x7E], [0x07, 0x01]] (by decide)⟩

/-! CRC facts. -/

/-- One CRC shift step keeps the register inside 16 bits. -/
theorem crcShift_lt {c : Nat} (h : c < 2 ^ 16) : crcShift c < 2 ^ 16 := by
  rw [crcShift]
  split
  · exact Nat.xor_lt_two_pow (by omega) (by norm_num)
  · omega

/-- Folding a 16-bit-bounded byte into the register keeps it inside 16
bits. -/
theorem crcByte_lt {c b : Nat} (hc : c < 2 ^ 16) (hb : b < 2 ^ 16) :
    crcByte c b < 2 ^ 16 := by
  rw [crcByte]
  exact crcShift_lt (crcShift_lt (crcShift_lt (crcShift_lt (crcShift_lt (crcShift_lt
    (crcShift_lt (crcShift_lt (Nat.xor_lt_two_pow hc hb))))))))

/-- The CRC fold stays inside 16 bits from any 16-bit start. -/
theorem foldl_crc_lt : ∀ (B : List Nat) (c : Nat), c < 2 ^ 16 →
    (∀ x ∈ B, x < 256) → B.foldl crcByte c < 2 ^ 16 := by
  intro B
  induction B with
  | nil => intro c hc _; simpa using hc
  | cons x t ih =>
    intro c hc hB
    rw [List.foldl_cons]
    have hx : x < 256 := hB x (List.mem_cons_self x t)
    exact ih (crcByte c x) (crcByte_lt hc (by omega))
      (fun y hy => hB y (List.mem_cons_of_mem x hy))

/-- The computed CRC of a byte body is a 16-bit value. -/
theorem calculate_crc_lt (B : List Nat) (hB : ∀ x ∈ B, x < 256) :
    calculate_crc B < 2 ^ 16 :=
  foldl_crc_lt B 0x8408 (by norm_num) hB

/-- Claim C9: `calculate_crc` implements the reflected CRC with polynomial
and initial register `0x8408` (empty body gives `0x8408`; each appended
byte is XORed into the register and followed by 8 shift steps), it is a
function so deterministic, and any body verifies against the little-endian
rendering of its own CRC. -/
theorem crc_algorithm_spec :
    calculate_crc [] = 0x8408 ∧
    (∀ (B : List Nat) (b : Nat), calculate_crc (B ++ [b]) = crcByte (calculate_crc B) b) ∧
    (∀ B : List Nat, (∀ x ∈ B, x < 256) →
      verify_checksum B (crc_le (calculate_crc B)) = true) := by
  refine ⟨rfl, ?_, ?_⟩
  · intro B b
    simp [calculate_crc, List.foldl_append]
  · intro B hB
    have h := calculate_crc_lt B hB
    have h' : calculate_crc B < 65536 := by norm_num at h; omega
    simp only [verify_checksum, crc_le, fromLE]
    rw [beq_iff_eq]
    omega

/-- Witness for `crc_algorithm_spec` at a concrete body. -/
theorem crc_algorithm_spec_witness :
    calculate_crc ([0x80, 0x01] ++ [0x49]) = crcByte (calculate_crc [0x80, 0x01]) 0x49 ∧
    verify_checksum [0x80, 0x01, 0x49] (crc_le (calculate_crc [0x80, 0x01, 0x49])) = true :=
  ⟨crc_algorithm_spec.2.1 [0x80, 0x01] 0x49,
   crc_algorithm_spec.2.2 [0x80, 0x01, 0x49] (by decide)⟩

/-! Deduplication-gate facts. -/

/-- Claim C1 (the claim itself fails on the code): when the configured
`dedup_window` is `<= 0`, `publish_power_report` returns immediately, so
no report is ever published and the recorded state is left untouched —
the opposite of the documented "disable the gate, publish everything". -/
theorem dedup_window_nonpositive_drops_all (w : ℚ) (hw : w ≤ 0) (st : DedupState)
    (g n : Nat) (t : ℚ) (r : ReportSample) :
    (publish_power_report w st g n t r).1 = false ∧
    (publish_power_report w st g n t r).2 = st := by
  simp [publish_power_report, hw]

/-- Witness for `dedup_window_nonpositive_drops_all` at window `0`. -/
theorem dedup_window_nonpositive_drops_all_witness :
    (publish_power_report 0 (fun _ => none) 1 2 3 ⟨4, 5, 6, 7⟩).1 = false ∧
    (publish_power_report 0 (fun _ => none) 1 2 3 ⟨4, 5, 6, 7⟩).2 = (fun _ => none) :=
  dedup_window_nonpositive_drops_all 0 le_rfl (fun _ => none) 1 2 3 ⟨4, 5, 6, 7⟩

/-- Claim C5: with a positive window, a report whose slot differs from the
slot last recorded for its `(gateway, node)` key is always published,
whatever the value deltas and the elapsed time. -/
theorem slot_change_always_published (w : ℚ) (hw : 0 < w) (st : DedupState)
    (g n : Nat) (t : ℚ) (r : ReportSample) (e : DedupEntry)
    (hst : st (g, n) = some e) (hslot : r.slot ≠ e.slot) :
    (publish_power_report w st g n t r).1 = true := by
  have hw' : ¬ w ≤ 0 := not_le.mpr hw
  simp only [publish_power_report, if_neg hw']
  rw [hst]
  simp [hslot]

/-- Witness for `slot_change_always_published`: same values, zero elapsed
time, new slot. -/
theorem slot_change_always_published_witness :
    (publish_power_report 1 (fun k => if k = (1, 2) then some ⟨0, 3, 0, 0, 0⟩ else none)
      1 2 0 ⟨4, 0, 0, 0⟩).1 = true :=
  slot_change_always_published 1 (by norm_num) _ 1 2 0 ⟨4, 0, 0, 0⟩ ⟨0, 3, 0, 0, 0⟩
    (by simp) (by decide)

/-- Claim C6: with a positive window and a fresh key, two successive
identical reports inside the window publish exactly the first one, and both
the publish and the suppress branch record the current sample, timestamp
included. -/
theorem identical_reports_within_window (w : ℚ) (hw : 0 < w) (st : DedupState)
    (g n : Nat) (t1 t2 : ℚ) (r : ReportSample)
    (hfresh : st (g, n) = none) (hwin : t2 - t1 < w) :
    (publish_power_report w st g n t1 r).1 = true ∧
    (publish_power_report w st g n t1 r).2 (g, n) =
      some ⟨t1, r.slot, r.voltage_in, r.current, r.temperature⟩ ∧
    (publish_power_report w (publish_power_report w st g n t1 r).2 g n t2 r).1 = false ∧
    (publish_power_report w (publish_power_report w st g n t1 r).2 g n t2 r).2 (g, n) =
      some ⟨t2, r.slot, r.voltage_in, r.current, r.temperature⟩ := by
  have hw' : ¬ w ≤ 0 := not_le.mpr hw
  have h2 : (publish_power_report w st g n t1 r).2 (g, n) =
      some ⟨t1, r.slot, r.voltage_in, r.current, r.temperature⟩ := by
    simp [publish_power_report, if_neg hw']
  refine ⟨?_, h2, ?_, ?_⟩
  · simp only [publish_power_report, if_neg hw']
    rw [hfresh]
  · norm_num [publish_power_report, hw', hwin]
  · simp [publish_power_report, if_neg hw']

/-- Witness for `identical_reports_within_window` at concrete values. -/
theorem identical_reports_within_window_witness :
    (publish_power_report 5 (fun _ => none) 1 2 0 ⟨3, 10, 2, 30⟩).1 = true ∧
    (publish_power_report 5 (fun _ => none) 1 2 0 ⟨3, 10, 2, 30⟩).2 (1, 2) =
      some ⟨0, 3, 10, 2, 30⟩ ∧
    (publish_power_report 5 (publish_power_report 5 (fun _ => none) 1 2 0 ⟨3, 10, 2, 30⟩).2
      1 2 1 ⟨3, 10, 2, 30⟩).1 = false ∧
    (publish_power_report 5 (publish_power_report 5 (fun _ => none) 1 2 0 ⟨3, 10, 2, 30⟩).2
      1 2 1 ⟨3, 10, 2, 30⟩).2 (1, 2) = some ⟨1, 3, 10, 2, 30⟩ :=
  identical_reports_within_window 5 (by norm_num) (fun _ => none) 1 2 0 1 ⟨3, 10, 2, 30⟩
    rfl (by norm_num)

/-! Power-report decoding facts. -/

/-- Claim C8: for a packet of at least 12 data bytes the handler emits a
report whose raw voltage is `(data[0] << 4) | ((data[1] & F0) >> 4)` scaled
by 0.05, whose raw current is `(data[4] << 4) | ((data[5] & F0) >> 4)`
scaled by 0.005, whose slot is the big-endian 16-bit value at bytes 10..12,
and whose `rssi` is byte 12 exactly when a 13th byte exists; shorter
packets are dropped with a warning. -/
theorem power_report_fields :
    (∀ data : List Nat, 12 ≤ data.length →
      ∃ rep : ParsedPowerReport, handle_power_report data = some rep ∧
        rep.vin_raw = (data.getD 0 0 <<< 4) ||| ((data.getD 1 0 &&& 0xF0) >>> 4) ∧
        rep.voltage_in = (rep.vin_raw : ℚ) * 0.05 ∧
        rep.cur_raw = (data.getD 4 0 <<< 4) ||| ((data.getD 5 0 &&& 0xF0) >>> 4) ∧
        rep.current = (rep.cur_raw : ℚ) * 0.005 ∧
        rep.slot = 256 * data.getD 10 0 + data.getD 11 0 ∧
        rep.rssi = (if 13 ≤ data.length then some (data.getD 12 0) else none)) ∧
    (∀ data : List Nat, data.length < 12 → handle_power_report data = none) := by
  constructor
  · intro data h
    rw [handle_power_report, if_neg (by omega)]
    exact ⟨_, rfl, rfl, rfl, rfl, rfl, rfl, rfl⟩
  · intro data h
    rw [handle_power_report, if_pos h]

/-- Witness for `power_report_fields`: a 13-byte packet with slot 5 and
rssi 7, and an 11-byte packet that is dropped. -/
theorem power_report_fields_witness :
    (∃ rep : ParsedPowerReport,
      handle_power_report [0, 0, 0, 0, 0, 0, 0, 0, 0, 0, 0, 5, 7] = some rep ∧
      rep.slot = 5 ∧ rep.rssi = some 7) ∧
    handle_power_report [0, 0, 0, 0, 0, 0, 0, 0, 0, 0, 0] = none := by
  constructor
  · obtain ⟨rep, hsome, _, _, _, _, hslot, hrssi⟩ :=
      power_report_fields.1 [0, 0, 0, 0, 0, 0, 0, 0, 0, 0, 0, 5, 7] (by decide)
    refine ⟨rep, hsome, ?_, ?_⟩
    · rw [hslot]; decide
    · rw [hrssi]; decide
  · exact power_report_fields.2 [0, 0, 0, 0, 0, 0, 0, 0, 0, 0, 0] (by decide)

/-! Receive-response walk facts. -/

/-- Each completing loop iteration advances the offset by at least 7, so
the number of emitted packets is bounded by the remaining payload over 7.
(Fuel-indexed strong induction on the remaining length.) -/
theorem walkPackets_bound_aux : ∀ (n : Nat) (p : List Nat) (o : Nat), p.length - o ≤ n →
    7 * (walkPackets p o).length ≤ p.length - o := by
  intro n
  induction n with
  | zero =>
    intro p o h
    rw [walkPackets, if_neg (by omega)]
    simp
  | succ n ih =>
    intro p o h
    rw [walkPackets]
    by_cases h6 : o + 6 ≤ p.length
    · rw [if_pos h6]
      by_cases h3 : o + 1 + 2 > p.length
      · rw [if_pos h3]; simp
      · rw [if_neg h3]
        by_cases hdl : o + 6 < p.length
        · rw [if_pos hdl]
          by_cases hov : o + 7 + p.getD (o + 6) 0 > p.length
          · rw [if_pos hov]; simp
          · rw [if_neg hov]
            have hrec := ih p (o + 7 + p.getD (o + 6) 0) (by omega)
            simp only [List.length_cons]
            omega
        · rw [if_neg hdl]; simp
    · rw [if_neg h6]; simp

/-- Claim C10: the embedded-packet walk of a receive-response payload
terminates, every completing iteration advancing the offset by at least 7
(1 type byte + 2 node-id bytes + 3 skipped bytes + 1 length byte + the
non-negative data length), so the number of iterations — one per emitted
packet — is bounded by the payload length over 7, from any starting
offset and in particular for the offsets chosen by the handler. -/
theorem receive_response_walk_bounded (p : List Nat) (o : Nat) :
    7 * (walkPackets p o).length ≤ p.length - o ∧
    (handle_receive_response p).length ≤ p.length / 7 := by
  have hw : ∀ o' : Nat, 7 * (walkPackets p o').length ≤ p.length - o' :=
    fun o' => walkPackets_bound_aux p.length p o' (by omega)
  refine ⟨hw o, ?_⟩
  rw [handle_receive_response]
  split_ifs
  · simp
  · have := hw (2 + 7 + 3); omega
  · have := hw (2 + 1 + 3); omega
  · have := hw (2 + 2 + 3); omega
  · have := hw (2 + 3); omega
  · simp

/-! Frame-decoder boundary behaviour. -/

/-- Concrete evaluation: a sentinel-delimited frame whose unescaped data is
only 4 bytes long (a 2-byte body plus its CRC) passes the decoder's length
and CRC checks and is delivered. -/
theorem processBuffer_short_frame_eval :
    (processBuffer [0x7E, 0x07, 0x80, 0x01, 0xA9, 0x91, 0x7E, 0x08]).1 =
      [[0x80, 0x01, 0xA9, 0x91]] := by
  have h1 : findSentinel 0x07 [0x7E, 0x07, 0x80, 0x01, 0xA9, 0x91, 0x7E, 0x08] = some 0 := by
    decide
  have h2 : findSentinel 0x08
      (([0x7E, 0x07, 0x80, 0x01, 0xA9, 0x91, 0x7E, 0x08] : List Nat).drop (0 + 2)) = some 4 := by
    decide
  rw [processBuffer_step h1 h2]
  have h3 : processBuffer
      (([0x7E, 0x07, 0x80, 0x01, 0xA9, 0x91, 0x7E, 0x08] : List Nat).drop (0 + 2 + 4 + 2)) =
      ([], []) := processBuffer_no_start (by decide)
  rw [h3]
  decide

/-- Counterexample to claim C2: a CRC-valid frame whose unescaped body with
the trailing CRC stripped has length 2 (`< 4`) is NOT dropped — the sink's
frame callback receives it, because the source applies its `>= 4` length
check to the unescaped data with the CRC still attached. -/
theorem short_body_frame_delivered :
    (processBuffer [0x7E, 0x07, 0x80, 0x01, 0xA9, 0x91, 0x7E, 0x08]).1 =
      [[0x80, 0x01, 0xA9, 0x91]] ∧
    ([0x80, 0x01, 0xA9, 0x91] : List Nat).length - 2 < 4 ∧
    verify_checksum [0x80, 0x01] [0xA9, 0x91] = true :=
  ⟨processBuffer_short_frame_eval, by decide, by decide⟩

/-- Claim C2 as amended: the decoder silently drops exactly those
sentinel-delimited regions whose unescaped data — CRC bytes included — is
shorter than 4 bytes (a CRC-stripped body shorter than 2 bytes); every
frame the sink receives has unescaped length at least 4. -/
theorem delivered_frames_min_length : ∀ (b : List Nat), ∀ u ∈ (processBuffer b).1,
    4 ≤ u.length := by
  have aux : ∀ (n : Nat) (b : List Nat), b.length < n → ∀ u ∈ (processBuffer b).1,
      4 ≤ u.length := by
    intro n
    induction n with
    | zero => intro b h; omega
    | succ n ih =>
      intro b hlen u hu
      cases h1 : findSentinel 0x07 b with
      | none =>
        rw [processBuffer_no_start h1] at hu
        simp at hu
      | some s =>
        cases h2 : findSentinel 0x08 (b.drop (s + 2)) with
        | none =>
          rw [processBuffer_no_end h1 h2] at hu
          simp at hu
        | some r =>
          rw [processBuffer_step h1 h2] at hu
          have hb1 := findSentinel_bound h1
          have hnext : (b.drop (s + 2 + r + 2)).length < n := by
            simp only [List.length_drop]
            omega
          by_cases hok : frameOK (unescape_frame ((b.drop (s + 2)).take r))
          · rw [if_pos hok] at hu
            rcases List.mem_cons.mp hu with h | h
            · subst h
              rw [frameOK, Bool.and_eq_true] at hok
              exact of_decide_eq_true hok.1
            · exact ih (b.drop (s + 2 + r + 2)) hnext u h
          · rw [if_neg hok] at hu
            exact ih (b.drop (s + 2 + r + 2)) hnext u hu
  intro b
  exact aux (b.length + 1) b (by omega)

/-- Witness for `delivered_frames_min_length` at the delivered 4-byte
frame. -/
theorem delivered_frames_min_length_witness :
    4 ≤ ([0x80, 0x01, 0xA9, 0x91] : List Nat).length :=
  delivered_frames_min_length [0x7E, 0x07, 0x80, 0x01, 0xA9, 0x91, 0x7E, 0x08]
    [0x80, 0x01, 0xA9, 0x91]
    (by rw [processBuffer_short_frame_eval]; exact List.mem_singleton.mpr rfl)

/-- Concrete evaluation: a region that contains a lone `7E` (followed by
`40`, neither a sentinel code nor an escape code) is still decoded, the
`7E` kept as a literal byte, and the frame is delivered because its CRC
validates. -/
theorem processBuffer_lone7E_eval :
    (processBuffer [0x7E, 0x07, 0x80, 0x01, 0x7E, 0x40, 0x37, 0xD5, 0x7E, 0x08]).1 =
      [[0x80, 0x01, 0x7E, 0x40, 0x37, 0xD5]] := by
  have h1 : findSentinel 0x07 [0x7E, 0x07, 0x80, 0x01, 0x7E, 0x40, 0x37, 0xD5, 0x7E, 0x08] =
      some 0 := by decide
  have h2 : findSentinel 0x08
      (([0x7E, 0x07, 0x80, 0x01, 0x7E, 0x40, 0x37, 0xD5, 0x7E, 0x08] : List Nat).drop (0 + 2)) =
      some 6 := by decide
  rw [processBuffer_step h1 h2]
  have h3 : processBuffer
      (([0x7E, 0x07, 0x80, 0x01, 0x7E, 0x40, 0x37, 0xD5, 0x7E, 0x08] : List Nat).drop
        (0 + 2 + 6 + 2)) = ([], []) := processBuffer_no_start (by decide)
  rw [h3]
  decide

/-- Counterexample to claim C3: the inter-sentinel region
`80 01 7E 40 37 D5` holds a lone `7E` at offset 2 (its successor `40` is
neither `07`, `08` nor an escape code `<= 6`), yet the decoder does NOT
treat the region as frameless and resynchronize: it delivers the frame,
the lone `7E` passed through as data. -/
theorem lone_7E_frame_still_delivered :
    (processBuffer [0x7E, 0x07, 0x80, 0x01, 0x7E, 0x40, 0x37, 0xD5, 0x7E, 0x08]).1 =
      [[0x80, 0x01, 0x7E, 0x40, 0x37, 0xD5]] ∧
    (([0x7E, 0x07, 0x80, 0x01, 0x7E, 0x40, 0x37, 0xD5, 0x7E, 0x08] : List Nat).getD 4 0 = 0x7E ∧
      ¬ ([0x7E, 0x07, 0x80, 0x01, 0x7E, 0x40, 0x37, 0xD5, 0x7E, 0x08] : List Nat).getD 5 0 ≤ 6 ∧
      ([0x7E, 0x07, 0x80, 0x01, 0x7E, 0x40, 0x37, 0xD5, 0x7E, 0x08] : List Nat).getD 5 0 ≠ 7 ∧
      ([0x7E, 0x07, 0x80, 0x01, 0x7E, 0x40, 0x37, 0xD5, 0x7E, 0x08] : List Nat).getD 5 0 ≠ 8) :=
  ⟨processBuffer_lone7E_eval, by decide, by decide, by decide⟩

/-- Claim C3 as amended: a lone `7E` whose successor is not one of the
escape codes is copied through `unescape_frame` as a literal byte and
decoding of the region simply continues — no resynchronization happens,
and the frame is delivered whenever the usual length and CRC checks pass
(the concrete delivery above shows this end to end). -/
theorem lone_7E_passes_through (y : Nat) (rest : List Nat) (hy : 7 ≤ y) :
    unescape_frame (0x7E :: y :: rest) = 0x7E :: unescape_frame (y :: rest) := by
  rw [unescape_frame, if_neg (fun h => absurd h.2 (by omega))]

/-- Witness for `lone_7E_passes_through` at successor byte `40`. -/
theorem lone_7E_passes_through_witness :
    unescape_frame [0x7E, 0x40, 0x11] = 0x7E :: unescape_frame [0x40, 0x11] :=
  lone_7E_passes_through 0x40 [0x11] (by decide)

/-- No `7E m` window occurs in a constant run of a byte other than `7E`. -/
theorem findSentinel_replicate (m c : Nat) (hc : c ≠ 0x7E) :
    ∀ n, findSentinel m (List.replicate n c) = none := by
  intro n
  induction n with
  | zero => rfl
  | succ k ih =>
    cases k with
    | zero => rfl
    | succ k2 =>
      rw [List.replicate_succ, List.replicate_succ, findSentinel,
        if_neg (fun h => hc h.1), ← List.replicate_succ, ih]
      rfl

/-- Claim C4 fails on the code: `MAX_BUFFER_SIZE` is defined but never
consulted, so a start sentinel followed by a mebibyte of bytes with no end
sentinel leaves the entire `1 MiB + 2` bytes buffered — the decoder
neither enforces the 1 MiB bound nor resets. -/
theorem buffer_bound_not_enforced :
    (processBuffer (0x7E :: 0x07 :: List.replicate (1024 * 1024) 0x41)).2 =
      0x7E :: 0x07 :: List.replicate (1024 * 1024) 0x41 ∧
    1024 * 1024 < (processBuffer (0x7E :: 0x07 :: List.replicate (1024 * 1024) 0x41)).2.length := by
  have h1 : findSentinel 0x07 (0x7E :: 0x07 :: List.replicate (1024 * 1024) 0x41) = some 0 := by
    rw [findSentinel, if_pos ⟨rfl, rfl⟩]
  have h2 : findSentinel 0x08
      ((0x7E :: 0x07 :: List.replicate (1024 * 1024) 0x41).drop (0 + 2)) = none := by
    have hdrop : (0x7E :: 0x07 :: List.replicate (1024 * 1024) 0x41).drop (0 + 2) =
        List.replicate (1024 * 1024) 0x41 := rfl
    rw [hdrop]
    exact findSentinel_replicate 0x08 0x41 (by omega) (1024 * 1024)
  rw [processBuffer_no_end h1 h2]
  refine ⟨rfl, ?_⟩
  rw [List.length_cons, List.length_cons, List.length_replicate]
  omega

end TigoBridge
